import Mathlib

/-!
Shallow embedding of the pursor price-tracking application core
(src/app/scraping.py, src/app/adapters/ebay.py, src/app/adapters/generic.py,
src/app/main.py) together with proofs about the embedded operations.

External collaborators (Playwright page access, urlparse, the SQL session)
are modelled as explicit inputs: page reads and navigation outcomes are
fields of an environment record, the parsed netloc of a URL is passed as an
`Option String` (`none` models a `urlparse` failure), and the database is a
record of lists of rows with commit/rollback made explicit.  Python floats
are modelled as rationals; Python `None`-able strings as `Option String`.
-/

namespace Pursor

/-! ### Listing snapshots (the dict returned by every adapter and by the
orchestrator fallback, see `ScrapingOrchestrator._get_fallback_result`). -/

/-- Result of one fetch attempt, mirroring the result dict built in
`EbayAdapter.scrape`, `GenericAdapter.scrape` and
`ScrapingOrchestrator._get_fallback_result`: keys `title`, `image_url`,
`site_name`, `currency`, `price`, `flags`. -/
structure Listing where
  title : Option String
  imageUrl : Option String
  siteName : Option String
  currency : String
  price : Option ℚ
  flags : List (String × Bool)
deriving DecidableEq, Repr

/-! ### Adapter registry (`ScrapingOrchestrator`, src/app/scraping.py) -/

/-- An adapter as seen by the registry: a name and the `domains` class
attribute (`EbayAdapter.domains = ["ebay.com", "www.ebay.com"]`,
`GenericAdapter.domains = ["*"]`). -/
structure Adapter where
  name : String
  domains : List String
deriving DecidableEq, Repr

def ebayAdapter : Adapter := ⟨"EbayAdapter", ["ebay.com", "www.ebay.com"]⟩

def genericAdapter : Adapter := ⟨"GenericAdapter", ["*"]⟩

/-- `ScrapingOrchestrator._register_adapters`: the eBay adapter is appended
first, the generic adapter last. -/
def registeredAdapters : List Adapter := [ebayAdapter, genericAdapter]

/-- Python `str.lower()`, character by character (the domains involved are
ASCII, where this agrees with Python). -/
def pyLower (s : String) : String :=
  String.mk (s.data.map Char.toLower)

/-- The `www.`-strip step of `ScrapingOrchestrator._extract_domain`:
`if domain.startswith('www.'): domain = domain[4:]`. -/
def stripLeadingWww (s : String) : String :=
  if "www.".data.isPrefixOf s.data then String.mk (s.data.drop 4) else s

/-- `ScrapingOrchestrator._extract_domain(url)`.  The call
`urlparse(url).netloc` is an external-library step; its outcome is the
`netloc` argument, with `none` modelling the exception branch (`except:
return "unknown"`).  On success the netloc is lower-cased and a leading
`www.` is stripped. -/
def extractDomain (netloc : Option String) : String :=
  match netloc with
  | none => "unknown"
  | some n => stripLeadingWww (pyLower n)

/-- `ScrapingOrchestrator.find_adapter`: iterate `self.adapters` in
registration order, return the first whose `domains` contains the extracted
domain, else `self.adapters[-1]` (the generic adapter). -/
def findAdapter (netloc : Option String) : Adapter :=
  let domain := extractDomain netloc
  match registeredAdapters.find? (fun a => a.domains.contains domain) with
  | some a => a
  | none => registeredAdapters.getLastD genericAdapter

/-! ### Fetch orchestrator (`ScrapingOrchestrator.fetch_listing`) -/

/-- One fetch attempt's interaction with the outside world:
`netloc` is the `urlparse` outcome for the URL, `launchOk` models
`async_playwright` start-up plus `chromium.launch`/`new_page`, `gotoOk`
models `page.goto`, `scrapeResult` models `adapter.scrape` (which may raise),
and `closeOk` models `browser.close()` in the `finally` block. -/
structure FetchEnv where
  netloc : Option String
  launchOk : Bool
  gotoOk : Bool
  scrapeResult : Except Unit Listing
  closeOk : Bool

/-- `ScrapingOrchestrator._get_fallback_result`. -/
def fallbackResult (netloc : Option String) (url : String) : Listing :=
  { title := some url
    imageUrl := none
    siteName := some (extractDomain netloc)
    currency := "USD"
    price := none
    flags := [] }

/-- `ScrapingOrchestrator.fetch_listing`: launch failure is caught by the
outer `except` and navigation/extraction failure by the inner `except`, each
returning the fallback result; a `browser.close()` failure after a
successful scrape propagates to the outer `except`, which also returns the
fallback result. -/
def fetchListing (env : FetchEnv) (url : String) : Listing :=
  if !env.launchOk then fallbackResult env.netloc url
  else if !env.gotoOk then fallbackResult env.netloc url
  else
    match env.scrapeResult with
    | Except.error _ => fallbackResult env.netloc url
    | Except.ok r => if env.closeOk then r else fallbackResult env.netloc url

/-! ### Price text parsing (`EbayAdapter._parse_price_text`,
src/app/adapters/ebay.py)

The seven regular expressions tried by the source are specific enough to be
embedded directly: each is matched by a deterministic greedy scanner (the
character classes `\d`, `\.`, `\s` and the currency letters are pairwise
disjoint, so greedy matching never needs backtracking for these patterns),
and `re.search` semantics is the leftmost starting position at which the
scanner succeeds.  `re.IGNORECASE` is modelled by comparing letters
case-insensitively. -/

/-- Greedy match of the capture group `(\d+\.?\d*)` at the start of `s`;
returns the captured characters and the remaining input. -/
def numCapture (s : List Char) : Option (List Char × List Char) :=
  let d1 := s.takeWhile Char.isDigit
  if d1.isEmpty then none
  else
    let r1 := s.drop d1.length
    match r1 with
    | '.' :: r2 =>
        let d2 := r2.takeWhile Char.isDigit
        some (d1 ++ '.' :: d2, r2.drop d2.length)
    | _ => some (d1, r1)

/-- Case-insensitive match of a literal at the start of `s` (the
`re.IGNORECASE` flag); returns the remaining input. -/
def litCI : List Char → List Char → Option (List Char)
  | [], s => some s
  | _ :: _, [] => none
  | p :: ps, c :: cs => if p.toLower = c.toLower then litCI ps cs else none

/-- Greedy `\s*`. -/
def dropSpaces (s : List Char) : List Char :=
  s.dropWhile Char.isWhitespace

/-- Match of `US\s*\$(\d+\.?\d*)` at the start of `s`. -/
def usDollarAt (s : List Char) : Option (List Char) :=
  match litCI ['U', 'S'] s with
  | none => none
  | some r =>
      match dropSpaces r with
      | c :: r2 => if c = '$' then (numCapture r2).map Prod.fst else none
      | [] => none

/-- Match of `LIT\s*(\d+\.?\d*)` at the start of `s` (the `GBP`/`EUR`
prefix patterns). -/
def curNumAt (lit : List Char) (s : List Char) : Option (List Char) :=
  match litCI lit s with
  | none => none
  | some r => (numCapture (dropSpaces r)).map Prod.fst

/-- Match of `\$(\d+\.?\d*)` at the start of `s`. -/
def dollarAt (s : List Char) : Option (List Char) :=
  match s with
  | c :: r => if c = '$' then (numCapture r).map Prod.fst else none
  | [] => none

/-- Match of `(\d+\.?\d*)\s*LIT` at the start of `s` (the `USD`/`GBP`/`EUR`
suffix patterns). -/
def numCurAt (lit : List Char) (s : List Char) : Option (List Char) :=
  match numCapture s with
  | none => none
  | some (cap, r) =>
      match litCI lit (dropSpaces r) with
      | some _ => some cap
      | none => none

/-- `re.search`: try the position matcher at every starting position, left
to right (including the end-of-string position), and return the first
capture. -/
def searchPat (m : List Char → Option (List Char)) : List Char → Option (List Char)
  | [] => m []
  | c :: cs =>
      match m (c :: cs) with
      | some cap => some cap
      | none => searchPat m cs

/-- Value of a list of decimal digits. -/
def digitsToNat (ds : List Char) : ℕ :=
  ds.foldl (fun n c => 10 * n + (c.toNat - 48)) 0

/-- Python `float` applied to a capture of shape `\d+\.?\d*` (always
parseable, so the `ValueError` branch of the source is unreachable for
these patterns): the exact value `intPart + frac / 10 ^ |frac|`, built as a
single fraction. -/
def capToRat (cap : List Char) : ℚ :=
  let intPart := cap.takeWhile Char.isDigit
  let rest := cap.drop intPart.length
  let frac := match rest with
    | '.' :: f => f
    | _ => []
  mkRat (digitsToNat intPart * 10 ^ frac.length + digitsToNat frac) (10 ^ frac.length)

/-- One entry of the `patterns` list: a position matcher together with the
currency the source derives from the pattern text (`"GBP" in
pattern.upper()` → GBP, `"EUR"` → EUR, otherwise USD). -/
structure PricePattern where
  matchAt : List Char → Option (List Char)
  currency : String

/-- The `patterns` list of `_parse_price_text`, in source order. -/
def pricePatterns : List PricePattern :=
  [⟨usDollarAt, "USD"⟩,
   ⟨curNumAt ['G', 'B', 'P'], "GBP"⟩,
   ⟨curNumAt ['E', 'U', 'R'], "EUR"⟩,
   ⟨dollarAt, "USD"⟩,
   ⟨numCurAt ['U', 'S', 'D'], "USD"⟩,
   ⟨numCurAt ['G', 'B', 'P'], "GBP"⟩,
   ⟨numCurAt ['E', 'U', 'R'], "EUR"⟩]

/-- The pattern loop of `_parse_price_text`: search each pattern in order;
on a match whose capture parses to a value `> 0`, return it with the
pattern's currency; otherwise continue with the next pattern. -/
def tryPatterns : List PricePattern → List Char → Option (ℚ × String)
  | [], _ => none
  | p :: ps, s =>
      match searchPat p.matchAt s with
      | some cap =>
          let price := capToRat cap
          if 0 < price then some (price, p.currency) else tryPatterns ps s
      | none => tryPatterns ps s

/-- The text clean-up of `_parse_price_text`:
`text.replace(",", "").strip()`. -/
def cleanText (t : List Char) : List Char :=
  ((((t.filter (fun c => c ≠ ',')).dropWhile
      Char.isWhitespace).reverse.dropWhile Char.isWhitespace).reverse)

/-- `EbayAdapter._parse_price_text`. -/
def parsePriceText (t : String) : Option (ℚ × String) :=
  if t.isEmpty then none
  else tryPatterns pricePatterns (cleanText t.data)

/-! ### Watchlist aggregation (`build_watchlist_rows`, src/app/main.py) -/

/-- Rounding of `a * 10 / d` to a natural number, halves to the even
neighbour; this is the rounding CPython applies when formatting a float
with `%.1f` (here applied to the magnitude in tenths). -/
def roundTenthsHalfEven (a d : ℕ) : ℕ :=
  let x := a * 10
  let fl := x / d
  let r2 := 2 * (x - fl * d)
  if r2 < d then fl
  else if d < r2 then fl + 1
  else if fl % 2 = 0 then fl else fl + 1

/-- Rendering of `f"{x:+.1f}"`: an explicit sign taken from the sign of
the value, followed by the magnitude `|q| = q.num.natAbs / q.den` rounded
to one decimal place. -/
def fmtSigned1f (q : ℚ) : String :=
  let t := roundTenthsHalfEven q.num.natAbs q.den
  let sign := if q.num < 0 then "-" else "+"
  sign ++ toString (t / 10) ++ "." ++ toString (t % 10)

/-- The `current_cents` column of a watchlist row:
`prices[-1].price_cents if prices else None` over the ascending-ordered
price history. -/
def currentCents (prices : List ℤ) : Option ℤ :=
  prices.getLast?

/-- The `delta_pct` column of a watchlist row, from `build_watchlist_rows`:
`"—"` unless `current_cents and first_cents and first_cents > 0` (Python
truthiness: a zero current or first falls to the sentinel), in which case
`f"{((current - first) / first) * 100:+.1f}%"`; the exact value of the
formatted quantity `(current - first) / first * 100` is built as a single
fraction (`first > 0` holds in this branch, so the denominator is
`first`). -/
def deltaPctStr (prices : List ℤ) : String :=
  match prices.getLast?, prices.head? with
  | some current, some first =>
      if current ≠ 0 ∧ 0 < first then
        fmtSigned1f (mkRat ((current - first) * 100) first.toNat) ++ "%"
      else "—"
  | _, _ => "—"

/-- The sparkline of a watchlist row: labels `str(i)` for the positions of
`prices[-10:]` and values `price_cents / 100.0`, both empty when the
history is empty. -/
def sparkline (prices : List ℤ) : List String × List ℚ :=
  if prices.isEmpty then ([], [])
  else
    let recent := prices.drop (prices.length - 10)
    ((List.range recent.length).map toString,
     recent.map (fun c : ℤ => (c : ℚ) / 100))

/-! ### Generic adapter (`GenericAdapter.scrape`, src/app/adapters/generic.py) -/

/-- Python truthiness of a `None`-able string: `None` and `""` are falsy. -/
def optFalsy (o : Option String) : Bool :=
  match o with
  | none => true
  | some s => s.isEmpty

/-- Fuel-indexed scanner behind `removeAllSub`; one unit of fuel is spent
per consumed character, so `s.length` units always suffice. -/
def removeAllSubFuel (pat : List Char) : ℕ → List Char → List Char
  | 0, s => s
  | _ + 1, [] => []
  | fuel + 1, c :: cs =>
      if pat ≠ [] ∧ pat.isPrefixOf (c :: cs) then
        removeAllSubFuel pat fuel ((c :: cs).drop pat.length)
      else c :: removeAllSubFuel pat fuel cs

/-- Embedding of Python `s.replace(pat, "")`: every non-overlapping
occurrence of `pat` is removed, scanning left to right (used by
`GenericAdapter.scrape` as `parsed.netloc.replace('www.', '')`). -/
def removeAllSub (pat : List Char) (s : List Char) : List Char :=
  removeAllSubFuel pat s.length s

/-- The page reads `GenericAdapter.scrape` performs: the three
`_get_meta_property` calls never raise (they catch internally and return
`None`), while `page.title()` and `urlparse(url)` may raise, which the
adapter's outer `except` turns into returning the result built so far. -/
structure GenericPageEnv where
  ogTitle : Option String
  ogImage : Option String
  ogSiteName : Option String
  pageTitle : Except Unit String
  netlocResult : Except Unit String

/-- The site-name fallback step of `GenericAdapter.scrape`: when the
`og:site_name` value is falsy, `urlparse(url).netloc.replace('www.', '')`
becomes the site name; a `urlparse` failure returns the result built so
far. -/
def genericSiteStep (r : Listing) (env : GenericPageEnv) : Listing :=
  if optFalsy r.siteName then
    match env.netlocResult with
    | Except.error _ => r
    | Except.ok n => { r with siteName := some (String.mk (removeAllSub "www.".data n.data)) }
  else r

/-- `GenericAdapter.scrape`: OpenGraph reads, then the document-title
fallback for a falsy title (a `page.title()` failure returns the result
built so far), then the site-name fallback. -/
def genericScrape (env : GenericPageEnv) : Listing :=
  let r0 : Listing := ⟨env.ogTitle, env.ogImage, env.ogSiteName, "USD", none, []⟩
  if optFalsy r0.title then
    match env.pageTitle with
    | Except.error _ => r0
    | Except.ok t => genericSiteStep { r0 with title := some t } env
  else genericSiteStep r0 env

/-! ### Database rows and the item-removal route (src/app/main.py) -/

/-- An `Item` row (src/app/models.py), restricted to the fields the
embedded operations touch. -/
structure ItemRec where
  id : ℕ
  url : String
  domain : String
  title : Option String
  imageUrl : Option String
  siteName : Option String
  currency : Option String
  paused : Bool
deriving DecidableEq, Repr

/-- A `Price` row. -/
structure PriceRec where
  itemId : ℕ
  priceCents : ℤ
  currency : String
deriving DecidableEq, Repr

/-- A `Target` row. -/
structure TargetRec where
  itemId : ℕ
  targetCents : Option ℤ
deriving DecidableEq, Repr

/-- A `Flag` row. -/
structure FlagRec where
  itemId : ℕ
  freeShipping : Option Bool
  acceptsOffers : Option Bool
deriving DecidableEq, Repr

/-- The committed database state: one list of rows per table. -/
structure Db where
  items : List ItemRec
  prices : List PriceRec
  targets : List TargetRec
  flags : List FlagRec
deriving DecidableEq, Repr

/-- The `DELETE /items/{item_id}` route (`remove_item`): look the item up;
if present, run the three related-record queries — which are `select`
statements only, they read the `Price`/`Target`/`Flag` rows and delete
nothing — then delete the item row itself and commit. -/
def removeItem (db : Db) (itemId : ℕ) : Db :=
  match db.items.find? (fun it => it.id == itemId) with
  | none => db
  | some _ =>
      { db with items := db.items.eraseP (fun it => it.id == itemId) }

/-! ### The batch check (`check_all_items` / `check_single_item`,
src/app/main.py)

`check_single_item` wraps its whole body in `try/except`: on any exception
(a hypothetical raise out of `fetch_listing`, or a failing
`session.commit()`) it logs and calls `session.rollback()`, discarding that
item's pending writes; it never re-raises, so the `for` loop of
`check_all_items` always proceeds to the next item.  Commit and rollback
are modelled by only producing a new committed `Db` on the success path. -/

/-- The outside-world outcome for checking one item: whether the fetch
step raises, the listing it returns otherwise, and whether the final
`session.commit()` fails. -/
structure ItemCheckEnv where
  fetchRaises : Bool
  listing : Listing
  commitFails : Bool

/-- Replacement of the first element satisfying `p` (the SQL session
updates the one row object it holds). -/
def updateFirst (p : α → Bool) (g : α → α) : List α → List α
  | [] => []
  | x :: xs => if p x then g x :: xs else x :: updateFirst p g xs

/-- The `item` field updates of `check_single_item`: each scraped field is
copied onto the item only when truthy. -/
def updateItemFromListing (it : ItemRec) (l : Listing) : ItemRec :=
  let it1 := if optFalsy l.title then it else { it with title := l.title }
  let it2 := if optFalsy l.imageUrl then it1 else { it1 with imageUrl := l.imageUrl }
  let it3 := if optFalsy l.siteName then it2 else { it2 with siteName := l.siteName }
  if l.currency.isEmpty then it3 else { it3 with currency := some l.currency }

/-- Python `int(q)`: truncation toward zero. -/
def truncToInt (q : ℚ) : ℤ :=
  Int.tdiv q.num (q.den : ℤ)

/-- Lookup of a key in the scraped flags dict. -/
def flagsLookup (fl : List (String × Bool)) (k : String) : Option Bool :=
  (fl.find? (fun p => p.1 == k)).map Prod.snd

/-- The flag-record field updates of `check_single_item`: each of
`free_shipping` and `accepts_offers` is set only when its key is present in
the scraped flags dict. -/
def applyFlagUpdates (fr : FlagRec) (fl : List (String × Bool)) : FlagRec :=
  let fr1 := match flagsLookup fl "free_shipping" with
    | some b => { fr with freeShipping := some b }
    | none => fr
  match flagsLookup fl "accepts_offers" with
  | some b => { fr1 with acceptsOffers := some b }
  | none => fr1

/-- The flag upsert of `check_single_item`: update the first existing
`Flag` row for the item, or insert a fresh one. -/
def upsertFlagRec (flags : List FlagRec) (itemId : ℕ) (fl : List (String × Bool)) : List FlagRec :=
  match flags.find? (fun f => f.itemId == itemId) with
  | some _ => updateFirst (fun f => f.itemId == itemId) (fun f => applyFlagUpdates f fl) flags
  | none => flags ++ [applyFlagUpdates ⟨itemId, none, none⟩ fl]

/-- `check_single_item`: returns the committed database after the item is
checked together with a success flag; on a fetch raise or a commit failure
the pending writes are rolled back, leaving the committed state unchanged. -/
def checkSingleItem (env : ItemCheckEnv) (it : ItemRec) (db : Db) : Db × Bool :=
  if env.fetchRaises then (db, false)
  else
    let it2 := updateItemFromListing it env.listing
    let items2 := updateFirst (fun x => x.id == it.id) (fun _ => it2) db.items
    let prices2 := match env.listing.price with
      | some p => db.prices ++ [⟨it.id, truncToInt (p * 100), env.listing.currency⟩]
      | none => db.prices
    let flags2 := if env.listing.flags.isEmpty then db.flags
      else upsertFlagRec db.flags it.id env.listing.flags
    if env.commitFails then (db, false)
    else ({ items := items2, prices := prices2, targets := db.targets, flags := flags2 }, true)

/-- The `for` loop of `check_all_items`: each listed item is checked in
turn against its environment, threading the committed database state and
collecting each item's success flag. -/
def runChecks : List (ItemRec × ItemCheckEnv) → Db → Db × List Bool
  | [], db => (db, [])
  | (it, env) :: rest, db =>
      let step := checkSingleItem env it db
      let tail := runChecks rest step.1
      (tail.1, step.2 :: tail.2)

/-- `check_all_items`: select the non-paused items and run the check loop
over them (the environments are zipped positionally). -/
def checkAllItems (envs : List ItemCheckEnv) (db : Db) : Db × List Bool :=
  runChecks ((db.items.filter (fun it => !it.paused)).zip envs) db

/-- Absence of decimal digits in a character list; a text satisfying this
contains no numeric/currency pattern. -/
def NoDigit (s : List Char) : Prop :=
  ∀ c ∈ s, c.isDigit = false

/-! ## Theorems -/

/-- Claim C10: removing an item deletes only the `Item` row — the `Price`,
`Target` and `Flag` tables are untouched, since the related-record queries
in `remove_item` are plain selects that only read those rows. -/
theorem removeItem_frame (db : Db) (itemId : ℕ) :
    (removeItem db itemId).prices = db.prices ∧
    (removeItem db itemId).targets = db.targets ∧
    (removeItem db itemId).flags = db.flags := by
  rcases hf : db.items.find? (fun it => it.id == itemId) with _ | it <;>
    simp [removeItem, hf]

/-- Claim C6: for every price history of length `n`, the sparkline has
exactly `min n 10` points, its values are the most recent entries in
chronological order scaled to major currency units, and its labels are the
position-index strings. -/
theorem sparkline_window (prices : List ℤ) :
    (sparkline prices).1.length = min prices.length 10 ∧
    (sparkline prices).2.length = min prices.length 10 ∧
    (sparkline prices).2 = ((prices.reverse.take 10).reverse).map (fun c : ℤ => (c : ℚ) / 100) ∧
    (sparkline prices).1 = (List.range (min prices.length 10)).map toString := by
  have hrecent : prices.drop (prices.length - 10) = (prices.reverse.take 10).reverse := by
    rw [List.take_reverse, List.reverse_reverse]
  have hlen : (prices.drop (prices.length - 10)).length = min prices.length 10 := by
    rw [List.length_drop]; omega
  cases hp : prices.isEmpty with
  | true =>
      have h0 : prices = [] := List.isEmpty_iff.mp hp
      subst h0
      simp [sparkline]
  | false =>
      have hs : sparkline prices =
          ((List.range (prices.drop (prices.length - 10)).length).map toString,
           (prices.drop (prices.length - 10)).map (fun c : ℤ => (c : ℚ) / 100)) := by
        simp [sparkline, hp]
      rw [hs]
      refine ⟨?_, ?_, ?_, ?_⟩
      · simp [hlen]
      · simp
        omega
      · rw [hrecent]
      · rw [hlen]

/-- Claim C4: adapter resolution is total and deterministic — for every
parse outcome (including a failed or malformed one) it returns the first
registered adapter whose domain set contains the extracted domain, and the
wildcard generic adapter when no registered domain set matches it. -/
theorem findAdapter_first_match_or_generic (netloc : Option String) :
    (extractDomain netloc ∈ ebayAdapter.domains → findAdapter netloc = ebayAdapter) ∧
    (extractDomain netloc ∉ ebayAdapter.domains → findAdapter netloc = genericAdapter) := by
  constructor
  · intro h
    simp [findAdapter, registeredAdapters, List.find?, decide_eq_true h]
  · intro h
    by_cases hg : extractDomain netloc ∈ genericAdapter.domains
    · simp [findAdapter, registeredAdapters, List.find?, decide_eq_false h,
        decide_eq_true hg]
    · simp [findAdapter, registeredAdapters, List.find?, decide_eq_false h,
        decide_eq_false hg, List.getLastD]

/-- Claim C4 witness: a URL with netloc `www.EBAY.com` resolves to the
eBay adapter. -/
theorem findAdapter_first_match_or_generic_witness :
    findAdapter (some "www.EBAY.com") = ebayAdapter :=
  (findAdapter_first_match_or_generic (some "www.EBAY.com")).1 (by decide)

/-- Claim C2: the orchestrator fetch never raises — on a failure at
session acquisition, navigation, or adapter extraction it returns the
fallback snapshot whose title is the URL, whose site name is the extracted
domain, whose currency is `USD`, and which has no price and no flags. -/
theorem fetchListing_fallback_on_failure (env : FetchEnv) (url : String)
    (h : env.launchOk = false ∨ env.gotoOk = false ∨
      ∃ e, env.scrapeResult = Except.error e) :
    fetchListing env url = fallbackResult env.netloc url ∧
    (fetchListing env url).title = some url ∧
    (fetchListing env url).price = none ∧
    (fetchListing env url).siteName = some (extractDomain env.netloc) ∧
    (fetchListing env url).currency = "USD" ∧
    (fetchListing env url).flags = [] := by
  have hmain : fetchListing env url = fallbackResult env.netloc url := by
    rcases h with h | h | ⟨e, h⟩
    · simp [fetchListing, h]
    · cases hl : env.launchOk <;> simp [fetchListing, hl, h]
    · cases hl : env.launchOk <;> cases hg : env.gotoOk <;>
        simp [fetchListing, hl, hg, h]
  rw [hmain]
  exact ⟨rfl, rfl, rfl, rfl, rfl, rfl⟩

/-- Claim C2 witness: a page-access capability that always fails
navigation yields the fallback snapshot for the URL. -/
theorem fetchListing_fallback_on_failure_witness :
    fetchListing ⟨some "www.Example.com", true, false,
        Except.ok ⟨none, none, none, "USD", none, []⟩, true⟩
        "https://www.example.com/item/1"
      = fallbackResult (some "www.Example.com") "https://www.example.com/item/1" ∧
    (fetchListing ⟨some "www.Example.com", true, false,
        Except.ok ⟨none, none, none, "USD", none, []⟩, true⟩
        "https://www.example.com/item/1").title
      = some "https://www.example.com/item/1" ∧
    (fetchListing ⟨some "www.Example.com", true, false,
        Except.ok ⟨none, none, none, "USD", none, []⟩, true⟩
        "https://www.example.com/item/1").price = none ∧
    (fetchListing ⟨some "www.Example.com", true, false,
        Except.ok ⟨none, none, none, "USD", none, []⟩, true⟩
        "https://www.example.com/item/1").siteName = some (extractDomain (some "www.Example.com")) ∧
    (fetchListing ⟨some "www.Example.com", true, false,
        Except.ok ⟨none, none, none, "USD", none, []⟩, true⟩
        "https://www.example.com/item/1").currency = "USD" ∧
    (fetchListing ⟨some "www.Example.com", true, false,
        Except.ok ⟨none, none, none, "USD", none, []⟩, true⟩
        "https://www.example.com/item/1").flags = [] :=
  fetchListing_fallback_on_failure _ _ (Or.inr (Or.inl rfl))

/-- The delta fraction built by `deltaPctStr` is exactly the quantity
`(current - first) / first * 100` when `first` is positive. -/
theorem delta_arg_eq (current first : ℤ) (hf : 0 < first) :
    (mkRat ((current - first) * 100) first.toNat : ℚ) =
      ((current : ℚ) - (first : ℚ)) / (first : ℚ) * 100 := by
  have hft : ((first.toNat : ℕ) : ℚ) = (first : ℚ) := by
    exact_mod_cast congrArg (fun z : ℤ => (z : ℚ)) (Int.toNat_of_nonneg hf.le)
  rw [Rat.mkRat_eq_divInt, Rat.divInt_eq_div]
  push_cast [hft]
  ring

/-- The formula branch of `deltaPctStr`, in the form the specification
states it. -/
theorem deltaPctStr_formula (prices : List ℤ) (current first : ℤ)
    (hlast : prices.getLast? = some current) (hhead : prices.head? = some first)
    (hc : current ≠ 0) (hf : 0 < first) :
    deltaPctStr prices =
      fmtSigned1f (((current : ℚ) - (first : ℚ)) / (first : ℚ) * 100) ++ "%" := by
  simp [deltaPctStr, hlast, hhead, hc, hf, delta_arg_eq current first hf]

/-- Claim C1 counterexample: a single-point history `[1000]` renders the
delta `"+0.0%"` — first and last element coincide — and not the `"—"`
sentinel the claim requires for a single data point. -/
theorem watchlist_delta_single_point_cex :
    deltaPctStr [1000] = "+0.0%" ∧ deltaPctStr [1000] ≠ "—" := by
  exact ⟨by decide, by decide⟩

/-- Claim C1 (amended): when the history is nonempty, its last entry is
nonzero and its first entry is positive, the delta is
`(current - first) / first * 100` rendered with one decimal place and an
explicit sign; `[1000, 1200]` renders `"+20.0%"`; a single-point history
`[1000]` renders `"+0.0%"` (first and last coincide), not the sentinel; a
zero current falls back to the sentinel (Python truthiness); an empty
history has no current price and renders the sentinel. -/
theorem watchlist_delta_spec :
    (∀ (prices : List ℤ) (current first : ℤ),
        prices.getLast? = some current → prices.head? = some first →
        current ≠ 0 → 0 < first →
        deltaPctStr prices =
          fmtSigned1f (((current : ℚ) - (first : ℚ)) / (first : ℚ) * 100) ++ "%") ∧
    deltaPctStr [1000, 1200] = "+20.0%" ∧
    deltaPctStr [1000] = "+0.0%" ∧
    deltaPctStr [1000, 0] = "—" ∧
    currentCents [] = none ∧
    deltaPctStr [] = "—" :=
  ⟨deltaPctStr_formula, by decide, by decide, by decide, rfl, rfl⟩

/-- Claim C1 witness: the amended delta rule applied to the history
`[500, 750]`. -/
theorem watchlist_delta_spec_witness :
    deltaPctStr [500, 750] =
      fmtSigned1f ((((750 : ℤ) : ℚ) - ((500 : ℤ) : ℚ)) / ((500 : ℤ) : ℚ) * 100) ++ "%" :=
  watchlist_delta_spec.1 [500, 750] 750 500 (by decide) (by decide)
    (by decide) (by decide)

/-- Claim C7 counterexample: with no `og:site_name` and netloc
`shop.www.example.com` — which has no leading `www.` prefix, so the claim
says the site name is the unchanged host — the generic adapter produces
`shop.example.com`: the `replace` call removes every occurrence of
`www.`, not only a leading one. -/
theorem generic_siteName_replace_cex :
    (genericScrape ⟨some "T", none, none, Except.ok "T",
        Except.ok "shop.www.example.com"⟩).siteName = some "shop.example.com" ∧
    (genericScrape ⟨some "T", none, none, Except.ok "T",
        Except.ok "shop.www.example.com"⟩).siteName ≠ some "shop.www.example.com" := by
  exact ⟨by decide, by decide⟩

/-- Claim C7 (amended): when the page provides no `og:site_name` and the
reads succeed, the snapshot's site name is the URL's netloc with every
occurrence of the substring `www.` removed (not only a leading prefix). -/
theorem generic_siteName_fallback (ogT ogI : Option String) (t n : String) :
    (genericScrape ⟨ogT, ogI, none, Except.ok t, Except.ok n⟩).siteName
      = some (String.mk (removeAllSub "www.".data n.data)) := by
  simp only [genericScrape, genericSiteStep, optFalsy]
  split <;> rfl

/-! ### Parser lemmas: a digit-free text matches none of the patterns -/

theorem noDigit_tail {c : Char} {s : List Char} (h : NoDigit (c :: s)) :
    NoDigit s :=
  fun d hd => h d (List.mem_cons_of_mem _ hd)

theorem noDigit_dropWhile (p : Char → Bool) {s : List Char} (h : NoDigit s) :
    NoDigit (s.dropWhile p) :=
  fun d hd => h d ((List.dropWhile_sublist p).subset hd)

theorem noDigit_dropSpaces {s : List Char} (h : NoDigit s) :
    NoDigit (dropSpaces s) :=
  noDigit_dropWhile _ h

theorem takeWhile_digit_nil {s : List Char} (h : NoDigit s) :
    s.takeWhile Char.isDigit = [] := by
  cases s with
  | nil => rfl
  | cons c cs =>
      have hc := h c (List.mem_cons_self c cs)
      simp [List.takeWhile_cons, hc]

theorem numCapture_none {s : List Char} (h : NoDigit s) : numCapture s = none := by
  unfold numCapture
  simp [takeWhile_digit_nil h]

theorem noDigit_litCI : ∀ {l s r : List Char}, NoDigit s → litCI l s = some r →
    NoDigit r := by
  intro l
  induction l with
  | nil =>
      intro s r h he
      simp only [litCI, Option.some.injEq] at he
      exact he ▸ h
  | cons p ps ih =>
      intro s r h he
      cases s with
      | nil => simp [litCI] at he
      | cons c cs =>
          by_cases hc : p.toLower = c.toLower
          · rw [litCI, if_pos hc] at he
            exact ih (noDigit_tail h) he
          · rw [litCI, if_neg hc] at he
            exact absurd he (by simp)

theorem usDollarAt_none {s : List Char} (h : NoDigit s) : usDollarAt s = none := by
  unfold usDollarAt
  cases hl : litCI ['U', 'S'] s with
  | none => rfl
  | some r =>
      dsimp only
      have hd : NoDigit (dropSpaces r) :=
        noDigit_dropSpaces (noDigit_litCI h hl)
      cases hds : dropSpaces r with
      | nil => rfl
      | cons c r2 =>
          dsimp only
          by_cases hc : c = '$'
          · rw [if_pos hc, numCapture_none (noDigit_tail (hds ▸ hd))]
            rfl
          · rw [if_neg hc]

theorem curNumAt_none (lit : List Char) {s : List Char} (h : NoDigit s) :
    curNumAt lit s = none := by
  unfold curNumAt
  cases hl : litCI lit s with
  | none => rfl
  | some r =>
      dsimp only
      rw [numCapture_none (noDigit_dropSpaces (noDigit_litCI h hl))]
      rfl

theorem dollarAt_none {s : List Char} (h : NoDigit s) : dollarAt s = none := by
  cases s with
  | nil => rfl
  | cons c cs =>
      simp only [dollarAt]
      by_cases hc : c = '$'
      · rw [if_pos hc, numCapture_none (noDigit_tail h)]
        rfl
      · rw [if_neg hc]

theorem numCurAt_none (lit : List Char) {s : List Char} (h : NoDigit s) :
    numCurAt lit s = none := by
  unfold numCurAt
  rw [numCapture_none h]

theorem searchPat_none (m : List Char → Option (List Char))
    (hm : ∀ s, NoDigit s → m s = none) :
    ∀ s, NoDigit s → searchPat m s = none := by
  intro s
  induction s with
  | nil =>
      intro h
      exact hm [] h
  | cons c cs ih =>
      intro h
      simp only [searchPat]
      rw [hm _ h]
      exact ih (noDigit_tail h)

theorem noDigit_cleanText {t : List Char} (h : NoDigit t) :
    NoDigit (cleanText t) := by
  intro c hc
  unfold cleanText at hc
  rw [List.mem_reverse] at hc
  have hc2 := (List.dropWhile_sublist _).subset hc
  rw [List.mem_reverse] at hc2
  have hc3 := (List.dropWhile_sublist _).subset hc2
  exact h c (List.mem_of_mem_filter hc3)

theorem tryPatterns_none {l : List PricePattern} {s : List Char}
    (hl : ∀ pp ∈ l, searchPat pp.matchAt s = none) :
    tryPatterns l s = none := by
  induction l with
  | nil => rfl
  | cons pp ps ih =>
      simp only [tryPatterns]
      rw [hl pp (List.mem_cons_self _ _)]
      exact ih (fun q hq => hl q (List.mem_cons_of_mem _ hq))

theorem parsePriceText_noDigit (t : String)
    (h : ∀ c ∈ t.data, c.isDigit = false) : parsePriceText t = none := by
  unfold parsePriceText
  by_cases ht : t.isEmpty
  · simp [ht]
  · rw [if_neg ht]
    apply tryPatterns_none
    intro pp hpp
    have hnd : NoDigit (cleanText t.data) := noDigit_cleanText h
    simp only [pricePatterns, List.mem_cons, List.not_mem_nil, or_false] at hpp
    rcases hpp with rfl | rfl | rfl | rfl | rfl | rfl | rfl
    · exact searchPat_none _ (fun s hs => usDollarAt_none hs) _ hnd
    · exact searchPat_none _ (fun s hs => curNumAt_none _ hs) _ hnd
    · exact searchPat_none _ (fun s hs => curNumAt_none _ hs) _ hnd
    · exact searchPat_none _ (fun s hs => dollarAt_none hs) _ hnd
    · exact searchPat_none _ (fun s hs => numCurAt_none _ hs) _ hnd
    · exact searchPat_none _ (fun s hs => numCurAt_none _ hs) _ hnd
    · exact searchPat_none _ (fun s hs => numCurAt_none _ hs) _ hnd

/-- Claim C3 counterexample: the text `GBP 5 $123.45` contains the
substring `$123.45`, yet `parsePrice` returns `(5, GBP)` — the `GBP`
prefix pattern is tried before the bare-dollar pattern — and not
`(123.45, USD)`. -/
theorem parsePrice_dollar_text_cex :
    "GBP 5 $123.45".data = "GBP 5 ".data ++ "$123.45".data ++ ([] : List Char) ∧
    parsePriceText "GBP 5 $123.45" = some ((5 : ℚ), "GBP") ∧
    parsePriceText "GBP 5 $123.45" ≠ some ((123.45 : ℚ), "USD") := by
  have he : (123.45 : ℚ) = mkRat 12345 100 := by
    rw [Rat.mkRat_eq_divInt, Rat.divInt_eq_div]
    norm_num
  refine ⟨by decide, by decide, ?_⟩
  rw [he]
  decide

/-- Claim C3 (amended): on the input `$123.45` itself `parsePrice` returns
`(123.45, USD)` (a larger text containing that substring may be captured
by an earlier pattern first); `US $1,234.00` parses to `(1234.00, USD)`;
`45.00 EUR` parses to `(45.00, EUR)`; a text with no digits — hence no
numeric/currency pattern — parses to `none`. -/
theorem parsePrice_vectors :
    parsePriceText "$123.45" = some ((123.45 : ℚ), "USD") ∧
    parsePriceText "US $1,234.00" = some ((1234 : ℚ), "USD") ∧
    parsePriceText "45.00 EUR" = some ((45 : ℚ), "EUR") ∧
    (∀ t : String, (∀ c ∈ t.data, c.isDigit = false) → parsePriceText t = none) := by
  have he : (123.45 : ℚ) = mkRat 12345 100 := by
    rw [Rat.mkRat_eq_divInt, Rat.divInt_eq_div]
    norm_num
  refine ⟨?_, by decide, by decide, parsePriceText_noDigit⟩
  rw [he]
  decide

/-- Claim C3 witness: a digit-free text parses to `none`. -/
theorem parsePrice_vectors_witness :
    parsePriceText "no price here" = none :=
  parsePrice_vectors.2.2.2 "no price here" (by decide)

/-- Claim C5: `parsePrice` never returns a non-positive amount — every
returned price is strictly positive — and a match whose capture parses to
a zero or negative value is rejected, parsing continuing with the next
candidate pattern. -/
theorem parsePrice_positive :
    (∀ (t : String) (p : ℚ) (c : String),
        parsePriceText t = some (p, c) → 0 < p) ∧
    (∀ (pp : PricePattern) (ps : List PricePattern) (s cap : List Char),
        searchPat pp.matchAt s = some cap → capToRat cap ≤ 0 →
        tryPatterns (pp :: ps) s = tryPatterns ps s) := by
  have key : ∀ (l : List PricePattern) (s : List Char) (p : ℚ) (c : String),
      tryPatterns l s = some (p, c) → 0 < p := by
    intro l
    induction l with
    | nil =>
        intro s p c h
        simp [tryPatterns] at h
    | cons pp ps ih =>
        intro s p c h
        simp only [tryPatterns] at h
        cases hs : searchPat pp.matchAt s with
        | none =>
            rw [hs] at h
            dsimp only at h
            exact ih s p c h
        | some cap =>
            rw [hs] at h
            dsimp only at h
            by_cases hpos : 0 < capToRat cap
            · rw [if_pos hpos] at h
              obtain ⟨rfl, rfl⟩ : capToRat cap = p ∧ pp.currency = c := by
                simpa using h
              exact hpos
            · rw [if_neg hpos] at h
              exact ih s p c h
  constructor
  · intro t p c h
    unfold parsePriceText at h
    by_cases ht : t.isEmpty
    · simp [ht] at h
    · rw [if_neg ht] at h
      exact key _ _ _ _ h
  · intro pp ps s cap hs hle
    simp only [tryPatterns]
    rw [hs]
    dsimp only
    rw [if_neg (not_lt.mpr hle)]

/-- Claim C5 witness: the positivity rule applied to the parse of `$5`. -/
theorem parsePrice_positive_witness :
    parsePriceText "$5" = some ((5 : ℚ), "USD") ∧ (0 : ℚ) < 5 :=
  ⟨by decide, parsePrice_positive.1 "$5" 5 "USD" (by decide)⟩

/-- On a fetch raise or a commit failure, checking a single item rolls the
pending writes back and leaves the committed database unchanged. -/
theorem checkSingleItem_rollback (env : ItemCheckEnv) (it : ItemRec) (db : Db)
    (h : env.fetchRaises = true ∨ env.commitFails = true) :
    checkSingleItem env it db = (db, false) := by
  rcases h with h | h
  · simp [checkSingleItem, h]
  · cases hf : env.fetchRaises <;> simp [checkSingleItem, hf, h]

/-- Claim C8: per-item failure isolation in the batch check — a fetch or
persistence failure while checking one item leaves the committed database
unchanged for that item (rollback), the loop continues with the remaining
items from the same state, and every listed item receives an outcome. -/
theorem batch_isolation :
    (∀ (env : ItemCheckEnv) (it : ItemRec) (db : Db),
        env.fetchRaises = true ∨ env.commitFails = true →
        (checkSingleItem env it db).1 = db) ∧
    (∀ (it : ItemRec) (env : ItemCheckEnv)
        (rest : List (ItemRec × ItemCheckEnv)) (db : Db),
        env.fetchRaises = true ∨ env.commitFails = true →
        runChecks ((it, env) :: rest) db =
          ((runChecks rest db).1, false :: (runChecks rest db).2)) ∧
    (∀ (pairs : List (ItemRec × ItemCheckEnv)) (db : Db),
        (runChecks pairs db).2.length = pairs.length) := by
  refine ⟨?_, ?_, ?_⟩
  · intro env it db h
    rw [checkSingleItem_rollback env it db h]
  · intro it env rest db h
    simp [runChecks, checkSingleItem_rollback env it db h]
  · intro pairs
    induction pairs with
    | nil =>
        intro db
        rfl
    | cons p rest ih =>
        intro db
        cases p with
        | mk it env => simp [runChecks, ih]

/-- Claim C8 witness: a commit failure on a concrete item leaves the
(empty) committed database unchanged. -/
theorem batch_isolation_witness :
    (checkSingleItem ⟨false, ⟨some "t", none, none, "USD", some 5, []⟩, true⟩
        ⟨1, "u", "example.com", none, none, none, none, false⟩
        ⟨[], [], [], []⟩).1 = ⟨[], [], [], []⟩ :=
  batch_isolation.1
    ⟨false, ⟨some "t", none, none, "USD", some 5, []⟩, true⟩
    ⟨1, "u", "example.com", none, none, none, none, false⟩
    ⟨[], [], [], []⟩ (Or.inr rfl)

end Pursor
